import Mathlib

/-!
Shallow embedding of `src/genome.py`: a circular genome tracking transposable
elements (TEs), with an array-backed implementation (`ListGenome`, Python lists)
and a linked-list-backed implementation (`LinkedListGenome`, a circular doubly
linked list `DLList` with a dummy head).

Modelling notes, justified against the source:
* Python's `transposable_elements` dict (insertion ordered, keys never
  re-inserted because ids are a strictly increasing counter) is an association
  list `List (Nat × Nat × Nat)` of `(id, start, length)` triples; a fresh key
  assignment appends at the end, `pop` removes the unique entry, in-place value
  update keeps the position — exactly Python 3.7+ dict behaviour.
* The dict and the id counter are class-level in Python, but `ListGenome` and
  `LinkedListGenome` each use distinct class objects, so runs that touch a
  single instance of each class (all claims but the constructor claim) are
  modelled exactly by bundling dict + counter with the instance in `GState`.
  For the constructor claim the class-level sharing matters and is modelled
  separately via `ClassState`.
* Operations that raise an uncaught Python exception (IndexError, KeyError,
  AttributeError on `None`, ZeroDivisionError) are modelled as `none`.
* `DLList` is modelled by the list of values of its real nodes; `get_position`
  walks the cycle of `n` real nodes plus the dummy head, captured by
  `walkIndex`.  The in-place `x`-overwrite of `disable_te` coincides with the
  slice assignment `setX` whenever `start + length ≤ genome length`, which
  holds in every state reachable through the contract (`WF` below).
-/

/-- State of one genome instance: the symbol sequence (`'-'`, `'A'`, `'x'`),
the active-TE association list `(id, start, length)` in dict insertion order,
and the id counter (`tes_counter`). -/
structure GState where
  genome : List Char
  tes : List (Nat × Nat × Nat)
  counter : Nat
  deriving DecidableEq, Repr

/-- Python `len(self.genome)` / `len(self)` for both implementations. -/
def genomeLength (g : GState) : Nat := g.genome.length

/-- Python `str(self)`: `''.join(self.genome)` for both implementations. -/
def stringify (g : GState) : String := String.mk g.genome

/-- Method `active_tes`: `list(self.transposable_elements.keys())`, identical in both
implementations. -/
def activeTEs (g : GState) : List Nat := g.tes.map (fun e => e.1)

/-- Dict lookup `self.transposable_elements[te]`, as `(start, length)`. -/
def lookupTE (te : Nat) : List (Nat × Nat × Nat) → Option (Nat × Nat)
  | [] => none
  | e :: rest => if e.1 = te then some (e.2.1, e.2.2) else lookupTE te rest

/-- Dict removal `self.transposable_elements.pop(te)` (the entry, if present,
is unique because ids come from a strictly increasing counter). -/
def popTE (te : Nat) : List (Nat × Nat × Nat) → List (Nat × Nat × Nat)
  | [] => []
  | e :: rest => if e.1 = te then rest else e :: popTE te rest

/-- Slice assignment `genome[s:s+l] = ['x']*l`: Python semantics is exactly
`genome[:s] + ['x']*l + genome[s+l:]`.  The linked implementation writes the
same range in place by walking the cycle; that coincides with this whenever
`s + l ≤ genome.length` (true in all reachable states, see `WF`). -/
def setX (g : List Char) (s l : Nat) : List Char :=
  g.take s ++ List.replicate l 'x' ++ g.drop (s + l)

/-- Slice insertion `genome[pos:pos] = length*['A']` (array version), equally
the effect of `insert_n_elements` splicing `length` `'A'` nodes starting right
after the node before index `pos` (linked version). -/
def spliceA (g : List Char) (pos l : Nat) : List Char :=
  g.take pos ++ List.replicate l 'A' ++ g.drop pos

/-- The shift applied to a surviving TE record inside `insert_te`'s loop:
`if info[0] > pos: transposable_elements[id] = [info[0]+length, info[1]]`. -/
def shiftEntry (pos ilen : Nat) (e : Nat × Nat × Nat) : Nat × Nat × Nat :=
  if pos < e.2.1 then (e.1, e.2.1 + ilen, e.2.2) else e

/-- The `for id, info in self.transposable_elements.items():` loop of
`insert_te`, shared verbatim by both implementations up to the boolean
`symIsA` (whether the symbol the implementation examines equals `'A'`):
on the first entry with `symIsA ∧ s ≤ pos ≤ s + l` it disables that entry
(removing it, leaving later entries untouched) and breaks, returning the
disabled record; otherwise it applies the `info[0] > pos` shift and continues.
Returns the updated association list and the disabled record, if any. -/
def scanTEs (symIsA : Bool) (pos ilen : Nat) :
    List (Nat × Nat × Nat) → List (Nat × Nat × Nat) × Option (Nat × Nat × Nat)
  | [] => ([], none)
  | e :: rest =>
    if symIsA ∧ e.2.1 ≤ pos ∧ pos ≤ e.2.1 + e.2.2 then (rest, some e)
    else
      (shiftEntry pos ilen e :: (scanTEs symIsA pos ilen rest).1,
       (scanTEs symIsA pos ilen rest).2)

/-- Common tail of both `insert_te` bodies: run the scan loop (a collision
disable rewrites the colliding record's range to `'x'` before the splice, as
`disable_te` does), splice `ilen` `'A'` symbols at list index `insPos`, record
`[recPos, ilen]` under the fresh id, bump the counter, return the id.
`insPos` and `recPos` coincide for the array version; the linked version
splices after the node its `get_position` walk reached. -/
def insertCore (g : GState) (symIsA : Bool) (insPos recPos ilen : Nat) : GState × Nat :=
  let scanned := scanTEs symIsA recPos ilen g.tes
  let genome1 := match scanned.2 with
    | some e => setX g.genome e.2.1 e.2.2
    | none => g.genome
  ({ genome := spliceA genome1 insPos ilen,
     tes := scanned.1 ++ [(g.counter, recPos, ilen)],
     counter := g.counter + 1 }, g.counter)

namespace ListGenome

/-- Constructor `ListGenome.__init__`: `self.genome = ['-'] * n` (a negative `n` silently
yields the empty list in Python); dict empty, counter 1 in a fresh process. -/
def new (n : Int) : GState :=
  { genome := List.replicate n.toNat '-', tes := [], counter := 1 }

/-- Method `ListGenome.insert_te(pos, length)`.  The loop body reads
`self.genome[pos]`, so a nonempty dict with `pos ≥ len(genome)` raises
IndexError (modelled `none`); with an empty dict the loop never runs and the
slice insertion accepts any `pos` (clamping to the end, Python slice
semantics).  Otherwise: scan loop, splice, record, return the fresh id. -/
def insert_te (g : GState) (pos ilen : Nat) : Option (GState × Nat) :=
  if g.tes ≠ [] ∧ g.genome.length ≤ pos then none
  else some (insertCore g (g.genome.getD pos '-' == 'A') pos pos ilen)

/-- Method `ListGenome.copy_te(te, offset)`: inactive id returns `None` with no
mutation; otherwise `insertion_position = (pos+offset) % len(self.genome)`
(Python `%` on a positive modulus is `Int.emod`; a zero-length genome raises
ZeroDivisionError, modelled `none`) and the call delegates to `insert_te`. -/
def copy_te (g : GState) (te : Nat) (offset : Int) : Option (GState × Option Nat) :=
  match lookupTE te g.tes with
  | none => some (g, none)
  | some (s, l) =>
    if g.genome.length = 0 then none
    else
      (insert_te g (((s : Int) + offset) % (g.genome.length : Int)).toNat l).map
        (fun r => (r.1, some r.2))

/-- Method `ListGenome.disable_te(te)`: `self.transposable_elements.pop(te)` raises
KeyError on an inactive id (modelled `none`); otherwise the record is removed
and its `[start, start+length)` range overwritten with `'x'`. -/
def disable_te (g : GState) (te : Nat) : Option GState :=
  match lookupTE te g.tes with
  | none => none
  | some (s, l) => some { g with genome := setX g.genome s l, tes := popTE te g.tes }

end ListGenome

/-- Walk of `DLList.get_position(pos)`: for `pos ≥ 1` it starts at `head.next` and takes
`pos - 1` steps around the cycle of `n` real nodes plus the dummy head:
`walkIndex n steps` is the 0-based index of the node reached, `none` when the
walk lands on the dummy head (whose `val` is Python `None`). -/
def walkIndex (n steps : Nat) : Option Nat :=
  if steps % (n + 1) = n then none else some (steps % (n + 1))

namespace LinkedListGenome

/-- Constructor `LinkedListGenome.__init__`: `DLList(['-']*n)`, modelled by its value
list; dict empty, counter 1 in a fresh process. -/
def new (n : Int) : GState :=
  { genome := List.replicate n.toNat '-', tes := [], counter := 1 }

/-- Method `LinkedListGenome.insert_te(pos, length)`.  `get_position(pos)` returns
`None` for `pos < 1`, so `pos = 0` raises AttributeError in the loop
(`link_of_pos.val`) when the dict is nonempty, or in `insert_n_elements`
(`link.next` on `None`) when `length > 0`; only `pos = 0` with an empty dict
and `length = 0` survives, recording a `[0, 0]` TE.  For `pos ≥ 1` the walk
reaches either the dummy head (collision symbol is Python `None`, never `'A'`;
splice lands right after the head, i.e. at index 0) or the real node at index
`i`, whose value is the collision symbol and after which the splice starts
(list index `i + 1`). -/
def insert_te (g : GState) (pos ilen : Nat) : Option (GState × Nat) :=
  if pos = 0 then
    if g.tes = [] ∧ ilen = 0 then some (insertCore g false 0 0 0) else none
  else
    match walkIndex g.genome.length (pos - 1) with
    | none => some (insertCore g false 0 pos ilen)
    | some i => some (insertCore g (g.genome.getD i '-' == 'A') (i + 1) pos ilen)

/-- Method `LinkedListGenome.copy_te(te, offset)`: same text as the array version,
delegating to this implementation's `insert_te`. -/
def copy_te (g : GState) (te : Nat) (offset : Int) : Option (GState × Option Nat) :=
  match lookupTE te g.tes with
  | none => some (g, none)
  | some (s, l) =>
    if g.genome.length = 0 then none
    else
      (insert_te g (((s : Int) + offset) % (g.genome.length : Int)).toNat l).map
        (fun r => (r.1, some r.2))

/-- Method `LinkedListGenome.disable_te(te)`: `self.transposable_elements[te][1]`
raises KeyError on an inactive id (modelled `none`); otherwise the loop walks
to list index `start`, overwrites `length` values with `'x'` in place (equal
to `setX` since `start + length ≤ n` in reachable states), and pops the id. -/
def disable_te (g : GState) (te : Nat) : Option GState :=
  match lookupTE te g.tes with
  | none => none
  | some (s, l) => some { g with genome := setX g.genome s l, tes := popTE te g.tes }

end LinkedListGenome

/-- Class-level state shared by all instances of one genome class: the
`transposable_elements` dict and the `tes_counter` (`src/genome.py` declares
both at class scope). -/
structure ClassState where
  tes : List (Nat × Nat × Nat)
  counter : Nat
  deriving DecidableEq, Repr

/-- Project the class-level part out of an instance-bundled state. -/
def classOf (g : GState) : ClassState := ⟨g.tes, g.counter⟩

/-- Constructor `ListGenome.__init__` seen against explicit class state: it only assigns
`self.genome = ['-'] * n` and leaves the class-level dict and counter alone. -/
def ListGenome.initInstance (cs : ClassState) (n : Int) : GState :=
  { genome := List.replicate n.toNat '-', tes := cs.tes, counter := cs.counter }

/-- Constructor `LinkedListGenome.__init__` seen against explicit class state: it only
builds `self.genome = DLList(['-']*n)` and leaves the class-level dict and
counter alone. -/
def LinkedListGenome.initInstance (cs : ClassState) (n : Int) : GState :=
  { genome := List.replicate n.toNat '-', tes := cs.tes, counter := cs.counter }

/-- Well-formedness maintained by every contract-level operation sequence:
each recorded TE range lies inside the genome. -/
def WF (g : GState) : Prop := ∀ e ∈ g.tes, e.2.1 + e.2.2 ≤ g.genome.length

instance (g : GState) : Decidable (WF g) := by
  unfold WF; infer_instance

/-! ## General lemmas about the embedded operations -/

theorem genomeLength_def (g : GState) : genomeLength g = g.genome.length := rfl

theorem spliceA_length (g : List Char) (p l : Nat) :
    (spliceA g p l).length = g.length + l := by
  simp [spliceA]
  omega

theorem setX_length (g : List Char) (s l : Nat) (h : s + l ≤ g.length) :
    (setX g s l).length = g.length := by
  simp [setX]
  omega

theorem scanTEs_disabled_mem (b : Bool) (pos ilen : Nat)
    (l : List (Nat × Nat × Nat)) (e : Nat × Nat × Nat)
    (h : (scanTEs b pos ilen l).2 = some e) : e ∈ l := by
  induction l with
  | nil => simp [scanTEs] at h
  | cons a rest ih =>
    rw [scanTEs] at h
    split at h
    · simp at h
      simp [h]
    · exact List.mem_cons_of_mem a (ih h)

theorem scanTEs_no_collision (b : Bool) (pos ilen : Nat)
    (l : List (Nat × Nat × Nat))
    (h : ∀ e ∈ l, ¬(e.2.1 ≤ pos ∧ pos ≤ e.2.1 + e.2.2)) :
    scanTEs b pos ilen l = (l.map (shiftEntry pos ilen), none) := by
  induction l with
  | nil => simp [scanTEs]
  | cons a rest ih =>
    have ha : ¬(a.2.1 ≤ pos ∧ pos ≤ a.2.1 + a.2.2) := h a (by simp)
    have hr := ih (fun x hx => h x (by simp [hx]))
    rw [scanTEs, if_neg (by rintro ⟨-, h1, h2⟩; exact ha ⟨h1, h2⟩), hr]
    simp

theorem lookupTE_mem (te : Nat) (l : List (Nat × Nat × Nat)) (s len : Nat)
    (h : lookupTE te l = some (s, len)) : (te, s, len) ∈ l := by
  induction l with
  | nil => simp [lookupTE] at h
  | cons a rest ih =>
    obtain ⟨i, s0, l0⟩ := a
    rw [lookupTE] at h
    split at h
    · simp_all
    · exact List.mem_cons_of_mem _ (ih h)

theorem insertCore_tes (g : GState) (b : Bool) (ip rp ilen : Nat) :
    (insertCore g b ip rp ilen).1.tes
      = (scanTEs b rp ilen g.tes).1 ++ [(g.counter, rp, ilen)] := rfl

theorem insertCore_ret (g : GState) (b : Bool) (ip rp ilen : Nat) :
    (insertCore g b ip rp ilen).2 = g.counter := rfl

theorem insertCore_length (g : GState) (b : Bool) (ip rp ilen : Nat) (hwf : WF g) :
    genomeLength (insertCore g b ip rp ilen).1 = genomeLength g + ilen := by
  unfold insertCore
  cases hscan : (scanTEs b rp ilen g.tes).2 with
  | none => simp [hscan, genomeLength, spliceA_length]
  | some e =>
    have hle := hwf e (scanTEs_disabled_mem b rp ilen g.tes e hscan)
    simp only [hscan, genomeLength]
    rw [spliceA_length, setX_length _ _ _ hle]

theorem list_insert_te_eq_of_lt (g : GState) (pos ilen : Nat)
    (h : pos < g.genome.length) :
    ListGenome.insert_te g pos ilen
      = some (insertCore g (g.genome.getD pos '-' == 'A') pos pos ilen) := by
  unfold ListGenome.insert_te
  rw [if_neg]
  rintro ⟨-, h2⟩
  omega

theorem linked_insert_te_eq_of (g : GState) (pos ilen : Nat)
    (h1 : 1 ≤ pos) (h2 : pos ≤ g.genome.length) :
    LinkedListGenome.insert_te g pos ilen
      = some (insertCore g (g.genome.getD (pos - 1) '-' == 'A') pos pos ilen) := by
  unfold LinkedListGenome.insert_te
  rw [if_neg (by omega)]
  have hw : walkIndex g.genome.length (pos - 1) = some (pos - 1) := by
    unfold walkIndex
    rw [Nat.mod_eq_of_lt (by omega)]
    exact if_neg (by omega)
  simp only [hw]
  rw [show pos - 1 + 1 = pos by omega]

theorem genomeLength_of_core_eq (g : GState) (b : Bool) (ip rp ilen : Nat)
    (g2 : GState) (rid : Nat) (hwf : WF g)
    (h : insertCore g b ip rp ilen = (g2, rid)) :
    genomeLength g2 = genomeLength g + ilen := by
  have hg : g2 = (insertCore g b ip rp ilen).1 := (congrArg Prod.fst h).symm
  rw [hg]
  exact insertCore_length _ _ _ _ _ hwf

theorem list_insert_te_length (g : GState) (pos ilen : Nat) (g2 : GState)
    (rid : Nat) (hwf : WF g) (h : ListGenome.insert_te g pos ilen = some (g2, rid)) :
    genomeLength g2 = genomeLength g + ilen := by
  unfold ListGenome.insert_te at h
  split at h
  · exact Option.noConfusion h
  · rw [Option.some_inj] at h
    exact genomeLength_of_core_eq _ _ _ _ _ _ _ hwf h

theorem linked_insert_te_length (g : GState) (pos ilen : Nat) (g2 : GState)
    (rid : Nat) (hwf : WF g) (h : LinkedListGenome.insert_te g pos ilen = some (g2, rid)) :
    genomeLength g2 = genomeLength g + ilen := by
  unfold LinkedListGenome.insert_te at h
  split at h
  · split at h
    · rename_i hc
      rw [Option.some_inj] at h
      rw [show ilen = 0 from hc.2]
      exact genomeLength_of_core_eq _ _ _ _ _ _ _ hwf h
    · exact Option.noConfusion h
  · cases hw : walkIndex g.genome.length (pos - 1) with
    | none =>
      simp only [hw] at h
      rw [Option.some_inj] at h
      exact genomeLength_of_core_eq _ _ _ _ _ _ _ hwf h
    | some i =>
      simp only [hw] at h
      rw [Option.some_inj] at h
      exact genomeLength_of_core_eq _ _ _ _ _ _ _ hwf h

theorem list_copy_te_delegates (g : GState) (te : Nat) (off : Int) (s l : Nat)
    (hl : lookupTE te g.tes = some (s, l)) (hn : 0 < g.genome.length) :
    ListGenome.copy_te g te off
      = (ListGenome.insert_te g (((s : Int) + off) % (g.genome.length : Int)).toNat l).map
          (fun r => (r.1, some r.2)) := by
  unfold ListGenome.copy_te
  simp only [hl]
  rw [if_neg (by omega)]

theorem linked_copy_te_delegates (g : GState) (te : Nat) (off : Int) (s l : Nat)
    (hl : lookupTE te g.tes = some (s, l)) (hn : 0 < g.genome.length) :
    LinkedListGenome.copy_te g te off
      = (LinkedListGenome.insert_te g (((s : Int) + off) % (g.genome.length : Int)).toNat l).map
          (fun r => (r.1, some r.2)) := by
  unfold LinkedListGenome.copy_te
  simp only [hl]
  rw [if_neg (by omega)]

theorem emod_toNat_lt (s : Nat) (off : Int) (n : Nat) (hn : 0 < n) :
    (((s : Int) + off) % (n : Int)).toNat < n := by
  have h1 : 0 ≤ ((s : Int) + off) % (n : Int) := Int.emod_nonneg _ (by omega)
  have h2 : ((s : Int) + off) % (n : Int) < (n : Int) := Int.emod_lt_of_pos _ (by omega)
  omega

theorem list_insert_te_success (g : GState) (pos ilen : Nat)
    (hwf : WF g) (h : pos < g.genome.length) :
    ∃ g2, ListGenome.insert_te g pos ilen = some (g2, g.counter)
      ∧ genomeLength g2 = genomeLength g + ilen := by
  refine ⟨(insertCore g (g.genome.getD pos '-' == 'A') pos pos ilen).1, ?_, ?_⟩
  · rw [list_insert_te_eq_of_lt g pos ilen h]
    rfl
  · exact insertCore_length _ _ _ _ _ hwf

theorem linked_insert_te_success (g : GState) (pos ilen : Nat)
    (hwf : WF g) (h1 : 1 ≤ pos) (h2 : pos ≤ g.genome.length) :
    ∃ g2, LinkedListGenome.insert_te g pos ilen = some (g2, g.counter)
      ∧ genomeLength g2 = genomeLength g + ilen := by
  refine ⟨(insertCore g (g.genome.getD (pos - 1) '-' == 'A') pos pos ilen).1, ?_, ?_⟩
  · rw [linked_insert_te_eq_of g pos ilen h1 h2]
    rfl
  · exact insertCore_length _ _ _ _ _ hwf

theorem list_copy_te_length (g : GState) (te : Nat) (off : Int) (g2 : GState)
    (i : Nat) (hwf : WF g) (h : ListGenome.copy_te g te off = some (g2, some i)) :
    ∃ s l, lookupTE te g.tes = some (s, l) ∧ genomeLength g2 = genomeLength g + l := by
  unfold ListGenome.copy_te at h
  cases hl : lookupTE te g.tes with
  | none => simp [hl] at h
  | some sl =>
    obtain ⟨s, l⟩ := sl
    simp only [hl] at h
    split at h
    · exact Option.noConfusion h
    · rw [Option.map_eq_some'] at h
      obtain ⟨a, ha, hfa⟩ := h
      refine ⟨s, l, rfl, ?_⟩
      have hg : g2 = a.1 := (congrArg Prod.fst hfa).symm
      rw [hg]
      exact list_insert_te_length _ _ _ a.1 a.2 hwf (by rw [ha])

theorem linked_copy_te_length (g : GState) (te : Nat) (off : Int) (g2 : GState)
    (i : Nat) (hwf : WF g) (h : LinkedListGenome.copy_te g te off = some (g2, some i)) :
    ∃ s l, lookupTE te g.tes = some (s, l) ∧ genomeLength g2 = genomeLength g + l := by
  unfold LinkedListGenome.copy_te at h
  cases hl : lookupTE te g.tes with
  | none => simp [hl] at h
  | some sl =>
    obtain ⟨s, l⟩ := sl
    simp only [hl] at h
    split at h
    · exact Option.noConfusion h
    · rw [Option.map_eq_some'] at h
      obtain ⟨a, ha, hfa⟩ := h
      refine ⟨s, l, rfl, ?_⟩
      have hg : g2 = a.1 := (congrArg Prod.fst hfa).symm
      rw [hg]
      exact linked_insert_te_length _ _ _ a.1 a.2 hwf (by rw [ha])

theorem list_disable_te_length (g : GState) (te : Nat) (g2 : GState)
    (hwf : WF g) (h : ListGenome.disable_te g te = some g2) :
    genomeLength g2 = genomeLength g := by
  unfold ListGenome.disable_te at h
  cases hl : lookupTE te g.tes with
  | none => simp [hl] at h
  | some sl =>
    obtain ⟨s, l⟩ := sl
    simp only [hl] at h
    rw [Option.some_inj] at h
    rw [← h]
    exact setX_length _ _ _ (hwf (te, s, l) (lookupTE_mem te g.tes s l hl))

theorem linked_disable_te_length (g : GState) (te : Nat) (g2 : GState)
    (hwf : WF g) (h : LinkedListGenome.disable_te g te = some g2) :
    genomeLength g2 = genomeLength g := by
  unfold LinkedListGenome.disable_te at h
  cases hl : lookupTE te g.tes with
  | none => simp [hl] at h
  | some sl =>
    obtain ⟨s, l⟩ := sl
    simp only [hl] at h
    rw [Option.some_inj] at h
    rw [← h]
    exact setX_length _ _ _ (hwf (te, s, l) (lookupTE_mem te g.tes s l hl))

/-! ## Claim theorems -/

/-- C1: the claim states that a fresh `ListGenome(n)` and a fresh
`LinkedListGenome(n)` agree on the stringified genome and the active-TE set
after every step of any common operation sequence.  This fails already at the
one-call sequence `insert_te(0, 2)` on size 5: the array-backed genome returns
id 1 with sequence `AA-----` and active set `{1}`, while the linked-list
genome crashes (`get_position(0)` returns `None`, so `link_of_pos.val` raises
AttributeError), modelled as `none`. -/
theorem repr_equiv_fails_at_pos_zero :
    (ListGenome.insert_te (ListGenome.new 5) 0 2).map
        (fun r => (stringify r.1, activeTEs r.1, r.2))
      = some ("AA-----", [1], 1)
    ∧ LinkedListGenome.insert_te (LinkedListGenome.new 5) 0 2 = none := by
  decide

/-- C2, counterexample: the claim states that after `insert_te(pos, length)`
every TE still active afterwards whose start `s` was `> pos` is recorded at
`s + length`.  On the array-backed genome: after `insert_te(0,2)` (id 1,
start 0) and `insert_te(5,2)` (id 2, start 5), the call `insert_te(0,3)`
disables id 1 by collision and `break`s out of the loop before reaching id 2,
which stays active with start 5 instead of 5 + 3 = 8. -/
theorem shift_skipped_after_collision_cx :
    ((ListGenome.insert_te (ListGenome.new 10) 0 2).bind fun r1 =>
      (ListGenome.insert_te r1.1 5 2).bind fun r2 =>
      (ListGenome.insert_te r2.1 0 3).map fun r3 =>
        (lookupTE 2 r3.1.tes, (activeTEs r3.1).contains 2))
      = some (some (5, 2), true)
    ∧ (5 : Nat) ≠ 5 + 3 := by
  decide

/-- C2, amended: provided no active TE satisfies the collision test
`s ≤ pos ≤ s + length` (so no disable-and-`break` can occur), every TE of the
pre state whose start `s` is `> pos` is recorded at `s + length` after a
successful `insert_te(pos, length)` on either implementation. -/
theorem shift_applies_without_collision :
    ∀ (g : GState) (pos ilen : Nat) (g2 : GState) (rid : Nat),
    (∀ e ∈ g.tes, ¬(e.2.1 ≤ pos ∧ pos ≤ e.2.1 + e.2.2)) →
    (ListGenome.insert_te g pos ilen = some (g2, rid) ∨
      LinkedListGenome.insert_te g pos ilen = some (g2, rid)) →
    ∀ e ∈ g.tes, pos < e.2.1 → (e.1, e.2.1 + ilen, e.2.2) ∈ g2.tes := by
  intro g pos ilen g2 rid hnc hsucc e he hlt
  have hmem : ∀ (b : Bool) (ip : Nat),
      (e.1, e.2.1 + ilen, e.2.2) ∈ (insertCore g b ip pos ilen).1.tes := by
    intro b ip
    rw [insertCore_tes, scanTEs_no_collision b pos ilen g.tes hnc]
    refine List.mem_append_left _ (List.mem_map.mpr ⟨e, he, ?_⟩)
    simp [shiftEntry, hlt]
  rcases hsucc with h | h
  · unfold ListGenome.insert_te at h
    split at h
    · exact Option.noConfusion h
    · rw [Option.some_inj] at h
      have hg : g2 = (insertCore g (g.genome.getD pos '-' == 'A') pos pos ilen).1 :=
        (congrArg Prod.fst h).symm
      rw [hg]
      exact hmem _ _
  · unfold LinkedListGenome.insert_te at h
    split at h
    · split at h
      · rename_i hc
        rw [hc.1] at he
        exact absurd he (List.not_mem_nil e)
      · exact Option.noConfusion h
    · cases hw : walkIndex g.genome.length (pos - 1) with
      | none =>
        simp only [hw] at h
        rw [Option.some_inj] at h
        have hg : g2 = (insertCore g false 0 pos ilen).1 := (congrArg Prod.fst h).symm
        rw [hg]
        exact hmem _ _
      | some i =>
        simp only [hw] at h
        rw [Option.some_inj] at h
        have hg : g2 = (insertCore g (g.genome.getD i '-' == 'A') (i + 1) pos ilen).1 :=
          (congrArg Prod.fst h).symm
        rw [hg]
        exact hmem _ _

/-- C2, witness for the amended theorem: a genome with one TE at start 3,
inserting 2 symbols at position 0 with no collision, shifts the record
to start 5. -/
theorem shift_applies_without_collision_witness :
    (1, 3 + 2, 1) ∈
      (⟨['A', 'A', '-', '-', '-', '-', '-', '-'], [(1, 5, 1), (2, 0, 2)], 3⟩ : GState).tes :=
  shift_applies_without_collision ⟨List.replicate 6 '-', [(1, 3, 1)], 2⟩ 0 2
    ⟨['A', 'A', '-', '-', '-', '-', '-', '-'], [(1, 5, 1), (2, 0, 2)], 3⟩ 2
    (by decide) (Or.inl (by decide)) (1, 3, 1) (by decide) (by decide)

/-- C3: the claim states that `disable_te` on an id that is not active is a
silent no-op.  Both implementations instead raise KeyError
(`transposable_elements.pop(te)` resp. `transposable_elements[te][1]`),
modelled as `none`: on a fresh size-5 genome, `disable_te(1)` crashes. -/
theorem disable_inactive_raises :
    ListGenome.disable_te (ListGenome.new 5) 1 = none
    ∧ LinkedListGenome.disable_te (LinkedListGenome.new 5) 1 = none := by
  decide

/-- C4: `copy_te(te, offset)` with `te` not in the active mapping returns the
absent value and leaves the state (sequence, mapping, counter) unchanged, on
both implementations. -/
theorem copy_inactive_absent_no_mutation :
    ∀ (g : GState) (te : Nat) (off : Int), lookupTE te g.tes = none →
    ListGenome.copy_te g te off = some (g, none)
    ∧ LinkedListGenome.copy_te g te off = some (g, none) := by
  intro g te off h
  constructor
  · unfold ListGenome.copy_te
    simp only [h]
  · unfold LinkedListGenome.copy_te
    simp only [h]

/-- C4, witness: never-issued id 7 on a fresh size-5 genome. -/
theorem copy_inactive_absent_no_mutation_witness :
    ListGenome.copy_te ⟨List.replicate 5 '-', [], 1⟩ 7 (-2)
      = some (⟨List.replicate 5 '-', [], 1⟩, none)
    ∧ LinkedListGenome.copy_te ⟨List.replicate 5 '-', [], 1⟩ 7 (-2)
      = some (⟨List.replicate 5 '-', [], 1⟩, none) :=
  copy_inactive_absent_no_mutation ⟨List.replicate 5 '-', [], 1⟩ 7 (-2) (by decide)

/-- C5, counterexample: the claim states that for every active TE and every
offset, `copy_te` performs the insertion at the modulo-wrapped position and
returns the new id.  On the linked-list implementation, a wrapped insertion
position of 0 crashes instead: with a TE at start 1 in a length-7 genome,
`copy_te(1, -1)` computes `(1 + -1) % 7 = 0` and the delegated
`insert_te(0, 2)` raises AttributeError (`get_position(0)` is `None`). -/
theorem copy_linked_crashes_at_wrapped_zero :
    LinkedListGenome.insert_te (LinkedListGenome.new 5) 1 2
      = some (⟨['-', 'A', 'A', '-', '-', '-', '-'], [(1, 1, 2)], 2⟩, 1)
    ∧ LinkedListGenome.copy_te
        ⟨['-', 'A', 'A', '-', '-', '-', '-'], [(1, 1, 2)], 2⟩ 1 (-1) = none := by
  decide

/-- C5, amended: for every well-formed genome state, active TE `(s, l)` and
integer offset, `copy_te` delegates to `insert_te` at position
`(s + offset) mod length()` (Euclidean mod, so negative offsets wrap
backward); that position is in range, the array-backed insertion always
succeeds returning the fresh id and growing the genome by `l`, and the
linked-list insertion does so whenever the wrapped position is nonzero
(position 0 crashes, see the counterexample). -/
theorem copy_inserts_at_modular_position :
    ∀ (g : GState) (te : Nat) (off : Int) (s l : Nat),
    WF g → lookupTE te g.tes = some (s, l) → 0 < genomeLength g →
    (ListGenome.copy_te g te off
        = (ListGenome.insert_te g (((s : Int) + off) % (genomeLength g : Int)).toNat l).map
            (fun r => (r.1, some r.2)))
    ∧ (LinkedListGenome.copy_te g te off
        = (LinkedListGenome.insert_te g (((s : Int) + off) % (genomeLength g : Int)).toNat l).map
            (fun r => (r.1, some r.2)))
    ∧ (((s : Int) + off) % (genomeLength g : Int)).toNat < genomeLength g
    ∧ (∃ g2, ListGenome.insert_te g (((s : Int) + off) % (genomeLength g : Int)).toNat l
          = some (g2, g.counter) ∧ genomeLength g2 = genomeLength g + l)
    ∧ ((((s : Int) + off) % (genomeLength g : Int)).toNat ≠ 0 →
        ∃ g2, LinkedListGenome.insert_te g (((s : Int) + off) % (genomeLength g : Int)).toNat l
          = some (g2, g.counter) ∧ genomeLength g2 = genomeLength g + l) := by
  intro g te off s l hwf hl hn
  simp only [genomeLength_def] at hn ⊢
  have hip := emod_toNat_lt s off g.genome.length hn
  exact ⟨list_copy_te_delegates g te off s l hl hn,
         linked_copy_te_delegates g te off s l hl hn,
         hip,
         list_insert_te_success g _ l hwf hip,
         fun h0 => linked_insert_te_success g _ l hwf (by omega) (by omega)⟩

/-- C5, witness: genome of length 10 with a TE of length 2 at start 8 and
offset 5 — the wrapped insertion position is (8 + 5) mod 10 = 3. -/
theorem copy_inserts_at_modular_position_witness :
    ((((8 : Nat) : Int) + 5) %
        ((genomeLength ⟨List.replicate 8 '-' ++ ['A', 'A'], [(1, 8, 2)], 2⟩ : Nat) : Int)).toNat = 3
    ∧ ListGenome.copy_te ⟨List.replicate 8 '-' ++ ['A', 'A'], [(1, 8, 2)], 2⟩ 1 5
        = (ListGenome.insert_te ⟨List.replicate 8 '-' ++ ['A', 'A'], [(1, 8, 2)], 2⟩ 3 2).map
            (fun r => (r.1, some r.2)) :=
  ⟨by decide,
   (copy_inserts_at_modular_position ⟨List.replicate 8 '-' ++ ['A', 'A'], [(1, 8, 2)], 2⟩ 1 5 8 2
      (by decide) (by decide) (by decide)).1⟩

/-- C6, counterexample: the claim states that construction with `n < 0` fails
with InvalidSize and that a new instance's `active_tes()` is empty regardless
of operations on other instances.  The code has no size check — `['-'] * -3`
silently yields the empty sequence — and the TE mapping is a class attribute,
so after another instance's `insert_te` a freshly constructed `ListGenome(3)`
already reports active id 1. -/
theorem construction_claim_cx :
    (ListGenome.initInstance ⟨[], 1⟩ (-3)).genome = []
    ∧ ((ListGenome.insert_te (ListGenome.initInstance ⟨[], 1⟩ 5) 1 2).map
        (fun r => activeTEs (ListGenome.initInstance (classOf r.1) 3)) = some [1])
    ∧ ([1] : List Nat) ≠ [] := by
  decide

/-- C6, amended: construction never fails; it yields `max(n, 0)` empty (`-`)
positions (so `n` positions for `n ≥ 0` and the empty sequence for `n < 0`),
leaves the class-level TE mapping and counter untouched, and the new
instance's `active_tes()` equals the ids already present in that shared
class-level mapping (empty only in a fresh process). -/
theorem construction_shape_and_shared_mapping :
    ∀ (cs : ClassState) (n : Int),
    (ListGenome.initInstance cs n).genome = List.replicate n.toNat '-'
    ∧ (LinkedListGenome.initInstance cs n).genome = List.replicate n.toNat '-'
    ∧ classOf (ListGenome.initInstance cs n) = cs
    ∧ classOf (LinkedListGenome.initInstance cs n) = cs
    ∧ activeTEs (ListGenome.initInstance cs n) = cs.tes.map (fun e => e.1)
    ∧ activeTEs (LinkedListGenome.initInstance cs n) = cs.tes.map (fun e => e.1) :=
  fun _ _ => ⟨rfl, rfl, rfl, rfl, rfl, rfl⟩

/-- C7: on well-formed states, each successful `insert_te` grows the genome by
exactly the inserted length, each `copy_te` that returns an id grows it by
exactly the copied TE's length, and each successful `disable_te` leaves it
unchanged — on both implementations.  Since no operation ever shrinks the
genome, `length()` is non-decreasing over any operation sequence. -/
theorem length_accounting :
    (∀ (g : GState) (pos ilen : Nat) (g2 : GState) (rid : Nat), WF g →
        ListGenome.insert_te g pos ilen = some (g2, rid) →
        genomeLength g2 = genomeLength g + ilen)
    ∧ (∀ (g : GState) (pos ilen : Nat) (g2 : GState) (rid : Nat), WF g →
        LinkedListGenome.insert_te g pos ilen = some (g2, rid) →
        genomeLength g2 = genomeLength g + ilen)
    ∧ (∀ (g : GState) (te : Nat) (off : Int) (g2 : GState) (i : Nat), WF g →
        ListGenome.copy_te g te off = some (g2, some i) →
        ∃ s l, lookupTE te g.tes = some (s, l) ∧ genomeLength g2 = genomeLength g + l)
    ∧ (∀ (g : GState) (te : Nat) (off : Int) (g2 : GState) (i : Nat), WF g →
        LinkedListGenome.copy_te g te off = some (g2, some i) →
        ∃ s l, lookupTE te g.tes = some (s, l) ∧ genomeLength g2 = genomeLength g + l)
    ∧ (∀ (g : GState) (te : Nat) (g2 : GState), WF g →
        ListGenome.disable_te g te = some g2 → genomeLength g2 = genomeLength g)
    ∧ (∀ (g : GState) (te : Nat) (g2 : GState), WF g →
        LinkedListGenome.disable_te g te = some g2 → genomeLength g2 = genomeLength g) :=
  ⟨fun g pos ilen g2 rid hwf h => list_insert_te_length g pos ilen g2 rid hwf h,
   fun g pos ilen g2 rid hwf h => linked_insert_te_length g pos ilen g2 rid hwf h,
   fun g te off g2 i hwf h => list_copy_te_length g te off g2 i hwf h,
   fun g te off g2 i hwf h => linked_copy_te_length g te off g2 i hwf h,
   fun g te g2 hwf h => list_disable_te_length g te g2 hwf h,
   fun g te g2 hwf h => linked_disable_te_length g te g2 hwf h⟩

/-- C7, witness: inserting 2 symbols at position 0 of a fresh size-5
array-backed genome grows the length from 5 to 7. -/
theorem length_accounting_witness :
    genomeLength (⟨['A', 'A', '-', '-', '-', '-', '-'], [(1, 0, 2)], 2⟩ : GState)
      = genomeLength (ListGenome.new 5) + 2 :=
  length_accounting.1 (ListGenome.new 5) 0 2
    ⟨['A', 'A', '-', '-', '-', '-', '-'], [(1, 0, 2)], 2⟩ 1 (by decide) (by decide)

/-- C8: the claim states that whenever the pre-insertion symbol at `pos` is
`'A'` and an active TE satisfies `s ≤ pos ≤ s + length`, that TE is disabled.
On the linked-list implementation this fails: `get_position(pos)` is 1-based,
so the loop checks the symbol at index `pos - 1`.  Concretely, on `-AA----`
with TE 1 recorded as `(start 1, length 2)`, calling `insert_te(1, 1)` — where
the symbol at position 1 is `'A'` and `1 ≤ 1 ≤ 1 + 2` — leaves TE 1 active
(the node examined holds `'-'`), while the array-backed implementation
disables TE 1 on the identical state and call. -/
theorem linked_collision_check_misses :
    LinkedListGenome.insert_te (LinkedListGenome.new 5) 1 2
      = some (⟨['-', 'A', 'A', '-', '-', '-', '-'], [(1, 1, 2)], 2⟩, 1)
    ∧ (⟨['-', 'A', 'A', '-', '-', '-', '-'], [(1, 1, 2)], 2⟩ : GState).genome.getD 1 '-' = 'A'
    ∧ lookupTE 1 (⟨['-', 'A', 'A', '-', '-', '-', '-'], [(1, 1, 2)], 2⟩ : GState).tes
        = some (1, 2)
    ∧ ((LinkedListGenome.insert_te ⟨['-', 'A', 'A', '-', '-', '-', '-'], [(1, 1, 2)], 2⟩ 1 1).map
        (fun r => ((activeTEs r.1).contains 1, stringify r.1)) = some (true, "-AAA----"))
    ∧ ((ListGenome.insert_te ⟨['-', 'A', 'A', '-', '-', '-', '-'], [(1, 1, 2)], 2⟩ 1 1).map
        (fun r => ((activeTEs r.1).contains 1, stringify r.1)) = some (false, "-Axx----")) := by
  decide

/-- C9, counterexample: the claim (and the spec scenario) asserts the genome
reaches length 12 after `insert_te(0,2)` then `copy_te(1,3)` on a fresh
size-5 genome; the code yields 5 + 2 + 2 = 9. -/
theorem scenario_length_cx :
    ((ListGenome.insert_te (ListGenome.new 5) 0 2).bind fun r1 =>
      (ListGenome.copy_te r1.1 1 3).map fun r2 => genomeLength r2.1) = some 9
    ∧ (9 : Nat) ≠ 12 := by
  decide

/-- C9, amended: from a fresh size-5 array-backed genome, `insert_te(0,2)`
returns id 1 with sequence `AA-----` of length 7; `copy_te(1,3)` computes
insertion position (0 + 3) mod 7 = 3 and returns id 2, giving sequence
`AA-AA----` of length 9 and active id set {1, 2}. -/
theorem scenario_trace :
    ((ListGenome.insert_te (ListGenome.new 5) 0 2).map
        (fun r => (stringify r.1, genomeLength r.1, r.2)) = some ("AA-----", 7, 1))
    ∧ (((ListGenome.insert_te (ListGenome.new 5) 0 2).bind fun r1 =>
        (ListGenome.copy_te r1.1 1 3).map fun r2 =>
          (stringify r2.1, genomeLength r2.1, r2.2, activeTEs r2.1))
        = some ("AA-AA----", 9, some 2, [1, 2]))
    ∧ (((0 : Int) + 3) % (7 : Int)).toNat = 3 := by
  decide

/-- C10: the claim states `insert_te(pos, length)` returns normally for every
`pos` in `[0, length())` on both representations.  The array-backed version
is indeed total there, but the linked-list version crashes at `pos = 0`
(`get_position` returns `None` for positions below 1, and the loop then
dereferences it): `LinkedListGenome(5).insert_te(0, 2)` raises
AttributeError. -/
theorem insert_total_on_array_but_linked_crashes :
    (∀ (g : GState) (pos ilen : Nat), pos < genomeLength g →
        (ListGenome.insert_te g pos ilen).isSome = true)
    ∧ LinkedListGenome.insert_te (LinkedListGenome.new 5) 0 2 = none := by
  constructor
  · intro g pos ilen h
    rw [list_insert_te_eq_of_lt g pos ilen h]
    rfl
  · decide

/-- C10, witness: position 0 on a fresh size-3 array-backed genome is
accepted. -/
theorem insert_total_on_array_but_linked_crashes_witness :
    (ListGenome.insert_te (ListGenome.new 3) 0 1).isSome = true :=
  insert_total_on_array_but_linked_crashes.1 (ListGenome.new 3) 0 1 (by decide)
